import Mathlib

/-!
Verification of the request lifecycle coordinator of the airtable-mcp server.

The development shallowly embeds the two source files of the repository:

* `src/tools/airtable-tools.ts` — the tool dispatcher (`executeTool`,
  `canHandle`) with its early-cancellation check, unknown-tool rejection,
  progress reporting and cancellation classification;
* `src/clients/airtable-client.ts` — the generated endpoint glue, in
  particular `buildPath` (path-template substitution) and the two endpoint
  methods the claims exercise, `listBases` and `getRecord`.

The request tracker and progress reporter services are declared and used by
the source but their implementation files are not part of the repository
snapshot; those two components are modelled from the specification, and each
such definition is marked `Modelled from the spec:` in its doc comment.

JavaScript idioms are embedded explicitly: objects become association lists
in insertion order, `String.prototype.replace` with a string pattern
replaces only the first occurrence, thrown errors become an `Except`-style
error outcome, and the live `AbortSignal` becomes an explicit boolean that
the environment (not the dispatcher) may flip during a handler call.
-/

/-- A JSON-like value, modelling the `any`-typed data that flows through the
client (tool arguments, query parameters, response bodies). Object fields
are kept in insertion order, as JavaScript does. -/
inductive Value where
  | str (s : String)
  | num (n : Int)
  | bool (b : Bool)
  | null
  | arr (xs : List Value)
  | obj (fields : List (String × Value))

/-- Tool arguments and parameter objects: a JavaScript object as an
association list in insertion order (keys unique, as in a JS object). -/
abbrev Args := List (String × Value)

/-- Property access `params[k]` on a JavaScript object: the value of the
first binding of `k`, if any (`undefined` becomes `none`). -/
def jsLookup (params : Args) (k : String) : Option Value :=
  (params.find? (fun e => e.1 == k)).map (fun e => e.2)

mutual

/-- The JavaScript `String(value)` coercion, as applied by the client to
path-parameter values. Arrays join their elements with `,` and objects
print as `[object Object]`, as in JavaScript. -/
def jsToString : Value → String
  | .str s => s
  | .num n => toString n
  | .bool b => if b then "true" else "false"
  | .null => "null"
  | .arr xs => String.intercalate "," (jsToStringList xs)
  | .obj _ => "[object Object]"

/-- `jsToString` mapped over the elements of an array value. -/
def jsToStringList : List Value → List String
  | [] => []
  | v :: vs => jsToString v :: jsToStringList vs

end

/-- Whether `pre` is a prefix of `l`, on character lists (used to embed the
substring operations of JavaScript strings). -/
def isPrefixCL : List Char → List Char → Bool
  | [], _ => true
  | _ :: _, [] => false
  | a :: as, b :: bs => a == b && isPrefixCL as bs

/-- JavaScript `haystack.includes(needle)` on character lists. -/
def containsCL (needle : List Char) : List Char → Bool
  | [] => isPrefixCL needle []
  | c :: rest => isPrefixCL needle (c :: rest) || containsCL needle rest

/-- JavaScript `haystack.replace(needle, repl)` with a plain string pattern:
replaces only the first occurrence of `needle`, and returns the haystack
unchanged when `needle` does not occur. -/
def replaceFirstCL (needle repl : List Char) : List Char → List Char
  | [] => if isPrefixCL needle [] then repl else []
  | c :: rest =>
    if isPrefixCL needle (c :: rest) then repl ++ (c :: rest).drop needle.length
    else c :: replaceFirstCL needle repl rest

/-- Uppercase hexadecimal digit for `n < 16`. -/
def hexDigit (n : Nat) : Char :=
  if n < 10 then Char.ofNat (48 + n) else Char.ofNat (55 + n)

/-- Percent-encoding `%XX` of one byte, uppercase hex as produced by
JavaScript `encodeURIComponent`. -/
def byteHex (b : Nat) : List Char :=
  ['%', hexDigit (b / 16), hexDigit (b % 16)]

/-- UTF-8 bytes of a Unicode code point (the encoding JavaScript
`encodeURIComponent` applies before percent-encoding). -/
def utf8Bytes (n : Nat) : List Nat :=
  if n < 128 then [n]
  else if n < 2048 then [192 + n / 64, 128 + n % 64]
  else if n < 65536 then [224 + n / 4096, 128 + (n / 64) % 64, 128 + n % 64]
  else [240 + n / 262144, 128 + (n / 4096) % 64, 128 + (n / 64) % 64, 128 + n % 64]

/-- The characters `encodeURIComponent` leaves unescaped:
`A-Z a-z 0-9 - _ . ! ~ * ' ( )`. -/
def isUnreservedChar (c : Char) : Bool :=
  (65 ≤ c.toNat && c.toNat ≤ 90) || (97 ≤ c.toNat && c.toNat ≤ 122) ||
  (48 ≤ c.toNat && c.toNat ≤ 57) ||
  c == '-' || c == '_' || c == '.' || c == '!' || c == '~' || c == '*' ||
  c == Char.ofNat 39 || c == '(' || c == ')'

/-- JavaScript `encodeURIComponent`, on character lists. -/
def encodeURIComponentCL (s : List Char) : List Char :=
  (s.map (fun c =>
    if isUnreservedChar c then [c]
    else ((utf8Bytes c.toNat).map byteHex).flatten)).flatten

/-- The global replacement `.replace(/%2F/g, '/')` the client applies after
encoding, restoring forward slashes in path components. -/
def restoreSlashes : List Char → List Char
  | '%' :: '2' :: 'F' :: rest => '/' :: restoreSlashes rest
  | c :: rest => c :: restoreSlashes rest
  | [] => []

/-- The client's `encodePathComponent`: `encodeURIComponent` with forward
slashes preserved (`src/clients/airtable-client.ts`, inside `buildPath`). -/
def encodePathComponent (value : String) : String :=
  ⟨restoreSlashes (encodeURIComponentCL value.toList)⟩

/-- The literal placeholder text for a path-parameter key. -/
def placeholder (k : String) : List Char :=
  '\x7b' :: k.toList ++ ['\x7d']

/-- Scanner for the name part of a Google-style template
`\x7bname=pattern\x7d`: consumes characters other than `=` and the closing
brace up to an `=`, mirroring the `([^\x7d=]+)=` part of the regex
`/\x7b([^\x7d=]+)=[^\x7d]*\x7d/g` in `buildPath`. Returns the name
(nonempty) and the rest after the `=`. -/
def scanGoogleName (acc : List Char) : List Char → Option (List Char × List Char)
  | [] => none
  | c :: rest =>
    if c == '=' then (if acc.isEmpty then none else some (acc.reverse, rest))
    else if c == '\x7d' then none
    else scanGoogleName (c :: acc) rest

/-- Scanner for the pattern part `[^\x7d]*\x7d` of a Google-style template:
consumes characters up to the closing brace. Returns the consumed body and
the rest after the brace. -/
def scanGoogleBody (acc : List Char) : List Char → Option (List Char × List Char)
  | [] => none
  | c :: rest =>
    if c == '\x7d' then some (acc.reverse, rest)
    else scanGoogleBody (c :: acc) rest

/-- One step of the `googlePathTemplateRegex.exec` loop: at each opening
brace, attempt to match `\x7bname=pattern\x7d`; on success record
`(fullMatch, name)` and continue after the match, otherwise continue with
the next character. `fuel` bounds the number of scan positions (the scan
position strictly advances, so the string length suffices). -/
def googleScan : Nat → List Char → List (List Char × List Char)
  | _, [] => []
  | 0, _ :: _ => []
  | fuel + 1, c :: rest =>
    if c == '\x7b' then
      match scanGoogleName [] rest with
      | some (name, rest1) =>
        match scanGoogleBody [] rest1 with
        | some (body, rest2) =>
          ('\x7b' :: name ++ '=' :: body ++ ['\x7d'], name) :: googleScan fuel rest2
        | none => googleScan fuel rest
      | none => googleScan fuel rest
    else googleScan fuel rest

/-- All matches of the Google-style template regex
`/\x7b([^\x7d=]+)=[^\x7d]*\x7d/g` over a template, as `(fullMatch, name)`
pairs in match order. -/
def googleMatches (template : List Char) : List (List Char × List Char) :=
  googleScan template.length template

/-- Intermediate state of `buildPath`: the partially rewritten path and the
`processedParams` list. -/
structure BuildState where
  path : List Char
  processedParams : List String

/-- Association-list lookup for string-valued parameter maps. -/
def strLookup (params : List (String × String)) (k : String) : Option String :=
  (params.find? (fun e => e.1 == k)).map (fun e => e.2)

/-- The client's `buildPath` (`src/clients/airtable-client.ts`): first the
Google-style template pass (replacing each matched `\x7bname=pattern\x7d`
whose name has a parameter), then the standard pass iterating the parameter
entries in insertion order, replacing — via JavaScript
`String.prototype.replace` — the first occurrence of `\x7bkey\x7d` still
present in the path with the slash-preserving URI-encoded value. Parameter
values arrive here already coerced by `String(value)` (`jsToString`), the
coercion the source applies inside `buildPath`. A placeholder whose key has
no parameter is left in the path unchanged. -/
def buildPath (template : String) (params : List (String × String)) : String :=
  let afterGoogle :=
    (googleMatches template.toList).foldl
      (fun (st : BuildState) m =>
        let name : String := ⟨m.2⟩
        if name ≠ "" then
          match strLookup params name with
          | some v =>
            { path := replaceFirstCL m.1 (encodePathComponent v).toList st.path,
              processedParams := st.processedParams ++ [name] }
          | none => st
        else st)
      { path := template.toList, processedParams := [] }
  let afterStandard :=
    params.foldl
      (fun (st : BuildState) kv =>
        if st.processedParams.contains kv.1 then st
        else if containsCL (placeholder kv.1) st.path then
          { path := replaceFirstCL (placeholder kv.1) (encodePathComponent kv.2).toList st.path,
            processedParams := st.processedParams ++ [kv.1] }
        else st)
      afterGoogle
  ⟨afterStandard.path⟩

/-- Scanner for a standard placeholder `\x7bname\x7d`: consumes characters
other than `=` and the closing brace up to the brace, mirroring the
`([^\x7d=]+)\x7d` part of the per-endpoint extraction regex
`/\x7b([^\x7d=]+)\x7d/g`. -/
def scanSimpleName (acc : List Char) : List Char → Option (List Char × List Char)
  | [] => none
  | c :: rest =>
    if c == '\x7d' then (if acc.isEmpty then none else some (acc.reverse, rest))
    else if c == '=' then none
    else scanSimpleName (c :: acc) rest

/-- Scan of `pathTemplate.match(/\x7b([^\x7d=]+)\x7d/g)` with the brace
delimiters stripped (`slice(1, -1)` in the source): the standard
path-parameter names of a template, in template order. `fuel` bounds the
number of scan positions. -/
def simpleScan : Nat → List Char → List String
  | _, [] => []
  | 0, _ :: _ => []
  | fuel + 1, c :: rest =>
    if c == '\x7b' then
      match scanSimpleName [] rest with
      | some (name, rest2) => (⟨name⟩ : String) :: simpleScan fuel rest2
      | none => simpleScan fuel rest
    else simpleScan fuel rest

/-- The standard path-parameter names of a template. -/
def standardTemplateKeys (t : String) : List String :=
  simpleScan t.toList.length t.toList

/-- JavaScript object assignment `obj[k] = v` on an insertion-ordered
association list: overwrite in place if the key exists, else append. -/
def objInsert (ps : Args) (k : String) (v : Value) : Args :=
  if (ps.find? (fun e => e.1 == k)).isSome then
    ps.map (fun e => if e.1 == k then (k, v) else e)
  else ps ++ [(k, v)]

/-- The `pathParams` / `extractedParams` accumulator of the per-endpoint
parameter-separation code. -/
structure Extraction where
  pathParams : Args
  extracted : List String

/-- The per-endpoint path-parameter extraction (duplicated verbatim in
every endpoint method of `src/clients/airtable-client.ts`): first the
Google-style template pass, then the standard placeholders in template
order, copying each parameter that is present into `pathParams`; a missing
`userId` defaults to `"me"`, any other missing parameter is simply not
extracted. -/
def extractPathParams (template : String) (params : Args) : Extraction :=
  let afterGoogle :=
    (googleMatches template.toList).foldl
      (fun (acc : Extraction) m =>
        let name : String := ⟨m.2⟩
        if name ≠ "" then
          match jsLookup params name with
          | some v => ⟨objInsert acc.pathParams name v, acc.extracted ++ [name]⟩
          | none => acc
        else acc)
      ⟨[], []⟩
  (standardTemplateKeys template).foldl
    (fun (acc : Extraction) name =>
      if acc.extracted.contains name then acc
      else
        match jsLookup params name with
        | some v => ⟨objInsert acc.pathParams name v, acc.extracted ++ [name]⟩
        | none =>
          if name = "userId" then
            ⟨objInsert acc.pathParams name (.str "me"), acc.extracted ++ [name]⟩
          else acc)
    afterGoogle

/-- Lowercase hexadecimal digit for `n < 16` (JSON string escapes). -/
def lowerHexDigit (n : Nat) : Char :=
  if n < 10 then Char.ofNat (48 + n) else Char.ofNat (87 + n)

/-- JSON escaping of one character as performed by `JSON.stringify`. -/
def jsonEscapeChar (c : Char) : List Char :=
  if c == '"' then ['\\', '"']
  else if c == '\\' then ['\\', '\\']
  else if c == '\n' then ['\\', 'n']
  else if c == '\t' then ['\\', 't']
  else if c == '\r' then ['\\', 'r']
  else if c == Char.ofNat 8 then ['\\', 'b']
  else if c == Char.ofNat 12 then ['\\', 'f']
  else if c.toNat < 32 then
    ['\\', 'u', '0', '0', lowerHexDigit (c.toNat / 16), lowerHexDigit (c.toNat % 16)]
  else [c]

/-- A JSON string literal as produced by `JSON.stringify`. -/
def jsonQuote (s : String) : String :=
  ⟨'"' :: (s.toList.map jsonEscapeChar).flatten ++ ['"']⟩

/-- Indentation of `n` spaces. -/
def indentStr (n : Nat) : String :=
  ⟨List.replicate n ' '⟩

mutual

/-- `JSON.stringify(v, null, 2)` at nesting depth `indent`: two-space
pretty-printed JSON, used by every endpoint method to serialize the
response body into the returned text content block. -/
def jsonStringify2 (indent : Nat) : Value → String
  | .null => "null"
  | .bool b => if b then "true" else "false"
  | .num n => toString n
  | .str s => jsonQuote s
  | .arr [] => "[]"
  | .arr xs =>
    "[\n" ++
    String.intercalate ",\n" (jsonStringifyItems (indent + 2) xs) ++
    "\n" ++ indentStr indent ++ "]"
  | .obj [] => "\x7b\x7d"
  | .obj fs =>
    "\x7b\n" ++
    String.intercalate ",\n" (jsonStringifyFields (indent + 2) fs) ++
    "\n" ++ indentStr indent ++ "\x7d"

/-- The lines of an array's elements, each at the given indentation. -/
def jsonStringifyItems (indent : Nat) : List Value → List String
  | [] => []
  | v :: vs => (indentStr indent ++ jsonStringify2 indent v) :: jsonStringifyItems indent vs

/-- The `"key": value` lines of an object's fields, each at the given
indentation. -/
def jsonStringifyFields (indent : Nat) : List (String × Value) → List String
  | [] => []
  | (k, v) :: fs =>
    (indentStr indent ++ jsonQuote k ++ ": " ++ jsonStringify2 indent v) ::
    jsonStringifyFields indent fs

end

/-- Top-level `JSON.stringify(response.data, null, 2)`. -/
def stringify2 (v : Value) : String :=
  jsonStringify2 0 v

/-- One MCP content block `\x7b type: 'text', text: ... \x7d` of a tool
response payload. -/
structure ContentItem where
  type : String
  text : String
deriving DecidableEq, Repr

/-- A tool success payload `\x7b content: [...] \x7d`, the shape every
endpoint method returns. -/
structure ToolPayload where
  content : List ContentItem
deriving DecidableEq, Repr

/-- A progress notification `\x7b progress, total?, message \x7d`. -/
structure ProgressEvent where
  progress : Nat
  total : Option Nat
  message : String
deriving DecidableEq, Repr

/-- Outcome of the one `httpClient` request an endpoint method issues: it
resolves with a parsed JSON body, rejects with an axios cancellation
(`axios.isCancel(error)` true — the signal was aborted mid-flight), or
rejects with any other error. -/
inductive HttpOutcome where
  | ok (data : Value)
  | cancelled
  | err (message : String)

/-- Environment model of the outbound HTTP layer: the outcome of a request,
by request path and query parameters. -/
def HttpOracle := String → Args → HttpOutcome

/-- The `RequestOptions` an endpoint method receives: whether an abort
signal was supplied and whether an `onProgress` callback was wired
(`context?.progressToken && progressReporter` at the dispatcher). -/
structure ReqOptions where
  hasSignal : Bool
  onProgress : Bool
deriving DecidableEq, Repr

/-- Observable behaviour of one endpoint-method call: the request it issued
(if reached), the progress events it emitted through `options.onProgress`,
and its result, where a thrown `Error(message)` is `Except.error message`. -/
structure EndpointResult where
  issued : Option (String × Args)
  events : List ProgressEvent
  result : Except String ToolPayload

/-- Query-parameter separation of `listBases`: only the literal `""` key is
routed to the query (the generated `params[""]` check); every remaining
parameter falls through to the unused body object. -/
def listBasesQueryParams (params : Args) : Args :=
  match jsLookup params "" with
  | some v => [("", v)]
  | none => []

/-- The client's `listBases` (`src/clients/airtable-client.ts`): template
`/meta/bases`, no path parameters; reports start progress, issues the GET,
reports completion progress on success and wraps the response body in a
single text content block; an axios cancellation is rethrown as
`Error('Request was cancelled')`, any other failure as
`Error('Failed to execute list_bases: ...')`. -/
def listBases (params : Args) (options : ReqOptions) (http : HttpOracle) : EndpointResult :=
  let queryParams := listBasesQueryParams params
  let path := buildPath "/meta/bases" []
  let requestPath := if path = "/" then "" else path
  let startEvents : List ProgressEvent :=
    if options.onProgress then
      [⟨0, some 100, "Starting list_bases request..."⟩]
    else []
  let outcome := http requestPath queryParams
  { issued := some (requestPath, queryParams),
    events := startEvents ++
      (match outcome with
        | .ok _ =>
          if options.onProgress then
            [⟨100, some 100, "Completed list_bases request"⟩]
          else []
        | _ => []),
    result :=
      match outcome with
      | .ok data => .ok ⟨[⟨"text", stringify2 data⟩]⟩
      | .cancelled => .error "Request was cancelled"
      | .err m => .error ("Failed to execute list_bases: " ++ m) }

/-- The client's `getRecord` (`src/clients/airtable-client.ts`): template
`/\x7bbase_id\x7d/\x7btable_id_or_name\x7d/\x7brecord_id\x7d`, all three
parameters located in the path, no query parameters. The
`Validate required parameters` block of the source is empty, so a missing
path parameter is not rejected: its placeholder simply survives `buildPath`
and the request is issued with the literal placeholder text in the path. -/
def getRecord (params : Args) (options : ReqOptions) (http : HttpOracle) : EndpointResult :=
  let template := "/\x7bbase_id\x7d/\x7btable_id_or_name\x7d/\x7brecord_id\x7d"
  let ext := extractPathParams template params
  let path := buildPath template (ext.pathParams.map (fun kv => (kv.1, jsToString kv.2)))
  let requestPath := if path = "/" then "" else path
  let queryParams : Args := []
  let startEvents : List ProgressEvent :=
    if options.onProgress then
      [⟨0, some 100, "Starting get_record request..."⟩]
    else []
  let outcome := http requestPath queryParams
  { issued := some (requestPath, queryParams),
    events := startEvents ++
      (match outcome with
        | .ok _ =>
          if options.onProgress then
            [⟨100, some 100, "Completed get_record request"⟩]
          else []
        | _ => []),
    result :=
      match outcome with
      | .ok data => .ok ⟨[⟨"text", stringify2 data⟩]⟩
      | .cancelled => .error "Request was cancelled"
      | .err m => .error ("Failed to execute get_record: " ++ m) }

/-- Specification-level description of `buildPath` on standard templates,
following the amended claim wording: process the parameter entries in
order, each replacing the first occurrence of its `\x7bkey\x7d` placeholder
still present in the path with the slash-preserving URI-encoded value;
placeholders whose key has no parameter entry, and later duplicate
occurrences of an already-replaced placeholder, stay literally unchanged. -/
def substFirstOrdered (template : String) (params : List (String × String)) : String :=
  ⟨params.foldl
    (fun path kv =>
      if containsCL (placeholder kv.1) path then
        replaceFirstCL (placeholder kv.1) (encodePathComponent kv.2).toList path
      else path)
    template.toList⟩

/-- The list of the 18 supported tool names, as in `canHandle`
(`src/tools/airtable-tools.ts`). -/
def supportedTools : List String :=
  ["airtable_list_bases",
   "airtable_get_base_schema",
   "airtable_list_records",
   "airtable_get_record",
   "airtable_create_records",
   "airtable_update_records",
   "airtable_replace_records",
   "airtable_delete_records",
   "airtable_get_table",
   "airtable_create_table",
   "airtable_update_table",
   "airtable_create_field",
   "airtable_update_field",
   "airtable_list_views",
   "airtable_get_view",
   "airtable_create_view",
   "airtable_update_view",
   "airtable_delete_view"]

/-- `AirtableTools.canHandle`: membership in the supported tool list. -/
def canHandle (toolName : String) : Bool :=
  supportedTools.contains toolName

/-- The operation suffix used in the progress messages of each `switch`
case of `executeTool` (`'Starting <op> operation...'` /
`'Completed <op> operation'`), one case per supported tool; `none` is the
`default` case. -/
def toolOpName : String → Option String
  | "airtable_list_bases" => some "list_bases"
  | "airtable_get_base_schema" => some "get_base_schema"
  | "airtable_list_records" => some "list_records"
  | "airtable_get_record" => some "get_record"
  | "airtable_create_records" => some "create_records"
  | "airtable_update_records" => some "update_records"
  | "airtable_replace_records" => some "replace_records"
  | "airtable_delete_records" => some "delete_records"
  | "airtable_get_table" => some "get_table"
  | "airtable_create_table" => some "create_table"
  | "airtable_update_table" => some "update_table"
  | "airtable_create_field" => some "create_field"
  | "airtable_update_field" => some "update_field"
  | "airtable_list_views" => some "list_views"
  | "airtable_get_view" => some "get_view"
  | "airtable_create_view" => some "create_view"
  | "airtable_update_view" => some "update_view"
  | "airtable_delete_view" => some "delete_view"
  | _ => none

/-- Modelled from the spec: the `RequestContext` produced by the Request
Context Factory (spec §3); its implementation file
(`src/services/request-tracker.ts`) is not part of the repository snapshot,
only its import and uses in `executeTool` are. `aborted` is the observable
state of `abortController.signal.aborted`, the one-way cancellation flag;
`startTime` is accounting only (spec: "not correctness") and is omitted. -/
structure RequestContext where
  requestId : String
  progressToken : Option String
  aborted : Bool
deriving DecidableEq, Repr

/-- JavaScript truthiness of `context?.progressToken`: present and not the
empty string. -/
def tokenTruthy : Option String → Bool
  | none => false
  | some s => !(s == "")

/-- The early-cancellation test `context?.abortController.signal.aborted`
of `executeTool`. -/
def earlyAborted : Option RequestContext → Bool
  | some c => c.aborted
  | none => false

/-- The guard `context?.progressToken && progressReporter` controlling both
the dispatcher's own progress reports and the wiring of the endpoint
`onProgress` callback. -/
def progressWired : Option RequestContext → Bool → Bool
  | some c, reporter => tokenTruthy c.progressToken && reporter
  | none, _ => false

/-- The `requestOptions` object `executeTool` builds for the client call:
the abort signal when a context exists, and the progress callback when a
truthy progress token and a progress reporter are both present. -/
def mkReqOptions (context : Option RequestContext) (reporter : Bool) : ReqOptions :=
  { hasSignal := context.isSome,
    onProgress := progressWired context reporter }

/-- Observable behaviour of one client-method call as seen by the
dispatcher: the progress events the handler emitted through the wired
callback, its result (`Except.error m` for a rejection with
`Error(m)`), and whether the environment aborted the cancellation signal
while the call was in flight (the signal is one-way, so at the dispatcher's
catch the flag reads `aborted at dispatch || abortedDuring`). -/
structure ClientReturn where
  events : List ProgressEvent
  result : Except String ToolPayload
  abortedDuring : Bool

/-- Environment model of the client (the external collaborator of spec
§2): the behaviour of each client method, by tool name, arguments and
request options. -/
def ClientOracle := String → Args → ReqOptions → ClientReturn

/-- Terminal outcome of `executeTool`: a returned success payload, or a
thrown error together with the dispatcher's classification of the failure
(`loggedCancelled` is true exactly when the code logs the cancellation
path — `TOOL_CANCELLED_EARLY` / `TOOL_CANCELLED` — instead of a tool
error). -/
inductive ToolOutcome where
  | success (payload : ToolPayload)
  | thrown (message : String) (loggedCancelled : Bool)
deriving DecidableEq, Repr

/-- Observable behaviour of one `executeTool` call: the progress events
delivered through the reporter, which client method was invoked (if any),
the outcome, the context object as it stands after the call, and whether
the environment aborted the signal during the handler call. -/
structure ToolExec where
  events : List ProgressEvent
  handlerInvoked : Option String
  outcome : ToolOutcome
  ctxAfter : Option RequestContext
  envAborted : Bool

/-- `AirtableTools.executeTool` (`src/tools/airtable-tools.ts`): first the
early-cancellation check (`throw new Error('Request was cancelled')` before
anything else when the context's signal is already aborted), then the
`canHandle` validation (`throw new Error('Unknown tool: ...')`), then the
`switch` over the 18 tools, each case reporting start progress, calling the
client method and reporting completion progress on success; the `catch`
rethrows the error, classifying it as cancellation when the signal is
aborted or the message is `'Request was cancelled'`. `ensureInitialized`
only writes logs and the `initialized` flag and is not modelled. The
context object is never written to; its signal may only be flipped by the
environment during the client call. -/
def executeTool (name : String) (args : Args) (context : Option RequestContext)
    (reporter : Bool) (client : ClientOracle) : ToolExec :=
  if earlyAborted context then
    { events := [],
      handlerInvoked := none,
      outcome := .thrown "Request was cancelled" true,
      ctxAfter := context,
      envAborted := false }
  else if !canHandle name then
    { events := [],
      handlerInvoked := none,
      outcome := .thrown ("Unknown tool: " ++ name) false,
      ctxAfter := context,
      envAborted := false }
  else
    match toolOpName name with
    | none =>
      { events := [],
        handlerInvoked := none,
        outcome := .thrown ("Unknown tool: " ++ name) false,
        ctxAfter := context,
        envAborted := false }
    | some op =>
      let wired := progressWired context reporter
      let startEvents : List ProgressEvent :=
        if wired then [⟨0, some 100, "Starting " ++ op ++ " operation..."⟩] else []
      let call := client name args (mkReqOptions context reporter)
      let delivered := if wired then call.events else []
      let ctxAfter :=
        context.map (fun c => { c with aborted := c.aborted || call.abortedDuring })
      { events := startEvents ++ delivered ++
          (match call.result with
            | .ok _ =>
              if wired then [⟨100, some 100, "Completed " ++ op ++ " operation"⟩] else []
            | .error _ => []),
        handlerInvoked := some name,
        outcome :=
          match call.result with
          | .ok payload => .success payload
          | .error msg =>
            .thrown msg (earlyAborted ctxAfter || msg == "Request was cancelled"),
        ctxAfter := ctxAfter,
        envAborted := call.abortedDuring }

/-- Adapter from a concrete endpoint-method behaviour to the client-call
interface of the dispatcher. The adapter itself never touches the signal,
so `abortedDuring` is false; mid-flight aborts are modelled by the abstract
`ClientOracle` environment instead. -/
def toClientReturn (r : EndpointResult) : ClientReturn :=
  { events := r.events, result := r.result, abortedDuring := false }

/-- The concrete client with the two endpoint methods the claims exercise
materialized (`listBases`, `getRecord`); the remaining 16 endpoint methods
are instances of the same generated pattern and are represented here only
by their failure shape. -/
def clientDispatch (http : HttpOracle) : ClientOracle := fun name args options =>
  if name == "airtable_list_bases" then toClientReturn (listBases args options http)
  else if name == "airtable_get_record" then toClientReturn (getRecord args options http)
  else { events := [], result := .error ("Failed to execute " ++ name), abortedDuring := false }

/-- Modelled from the spec: the Cancellation Registry (spec §4.2); its
implementation file (`src/services/request-tracker.ts`) is not part of the
repository snapshot. Entries map a `requestId` to its signal's state
(`true` = cancelled); `delivered` order is insertion order. -/
structure CancellationRegistry where
  entries : List (String × Bool)
deriving DecidableEq, Repr

/-- Modelled from the spec: `register(requestId)` stores a fresh inactive
signal (freshness of the id is the caller's precondition, spec §4.2). -/
def registerSignal (st : CancellationRegistry) (id : String) : CancellationRegistry :=
  ⟨st.entries ++ [(id, false)]⟩

/-- Modelled from the spec: `cancel(requestId, reason)` activates the
signal if the id is currently registered and is otherwise silently ignored;
activation is idempotent and never an error. -/
def cancelSignal (st : CancellationRegistry) (id : String) : CancellationRegistry :=
  ⟨st.entries.map (fun e => if e.1 == id then (e.1, true) else e)⟩

/-- Modelled from the spec: `unregister(requestId)` removes the entry, safe
to call even if already removed. -/
def unregisterSignal (st : CancellationRegistry) (id : String) : CancellationRegistry :=
  ⟨st.entries.filter (fun e => !(e.1 == id))⟩

/-- Modelled from the spec: the Progress Correlator (spec §4.3); its
implementation file (`src/services/progress-reporter.ts`) is not part of
the repository snapshot. `channels` is the set of registered tokens,
`delivered` the notifications forwarded to the transport, in emission
order. -/
structure ProgressCorrelator where
  channels : List String
  delivered : List (String × ProgressEvent)
deriving DecidableEq, Repr

/-- Modelled from the spec: `register(progressToken)` creates an emission
channel for a token. -/
def pcRegister (st : ProgressCorrelator) (t : String) : ProgressCorrelator :=
  ⟨st.channels ++ [t], st.delivered⟩

/-- Modelled from the spec: `emit(progressToken, event)` forwards the
notification to the transport if the token is currently registered and
otherwise silently drops it (no queueing). -/
def pcEmit (st : ProgressCorrelator) (t : String) (e : ProgressEvent) : ProgressCorrelator :=
  if st.channels.contains t then ⟨st.channels, st.delivered ++ [(t, e)]⟩ else st

/-- Modelled from the spec: `unregister(progressToken)` removes the
channel, called when the invocation completes. -/
def pcUnregister (st : ProgressCorrelator) (t : String) : ProgressCorrelator :=
  ⟨st.channels.filter (fun c => !(c == t)), st.delivered⟩

/-! ### Helper lemmas -/

lemma scanGoogleName_no_eq (l : List Char) (acc : List Char) (h : '=' ∉ l) :
    scanGoogleName acc l = none := by
  induction l generalizing acc with
  | nil => rfl
  | cons c rest ih =>
    simp only [List.mem_cons, not_or] at h
    have hc : (c == '=') = false := by
      have : c ≠ '=' := fun hh => h.1 hh.symm
      simp [this]
    unfold scanGoogleName
    rw [hc]
    simp only [Bool.false_eq_true, if_false]
    by_cases hd : c == '\x7d'
    · rw [if_pos hd]
    · rw [if_neg hd]
      exact ih _ h.2

lemma googleScan_no_eq (fuel : Nat) (l : List Char) (h : '=' ∉ l) :
    googleScan fuel l = [] := by
  induction fuel generalizing l with
  | zero =>
    cases l with
    | nil => rfl
    | cons c rest => rfl
  | succ fuel ih =>
    cases l with
    | nil => rfl
    | cons c rest =>
      simp only [List.mem_cons, not_or] at h
      unfold googleScan
      by_cases hc : c == '\x7b'
      · rw [if_pos hc, scanGoogleName_no_eq rest [] h.2]
        exact ih rest h.2
      · rw [if_neg hc]
        exact ih rest h.2

lemma googleMatches_no_eq (l : List Char) (h : '=' ∉ l) : googleMatches l = [] :=
  googleScan_no_eq _ _ h

lemma contains_filter_ne (l : List String) (t : String) :
    (l.filter (fun c => !(c == t))).contains t = false := by
  simp

lemma stdFold_eq_plain (ps : List (String × String)) (path : List Char) (processed : List String)
    (h : ∀ k ∈ ps.map Prod.fst, k ∉ processed)
    (hnd : (ps.map Prod.fst).Nodup) :
    (ps.foldl
      (fun (st : BuildState) kv =>
        if st.processedParams.contains kv.1 then st
        else if containsCL (placeholder kv.1) st.path then
          { path := replaceFirstCL (placeholder kv.1) (encodePathComponent kv.2).toList st.path,
            processedParams := st.processedParams ++ [kv.1] }
        else st)
      ⟨path, processed⟩).path
    = ps.foldl
        (fun p kv =>
          if containsCL (placeholder kv.1) p then
            replaceFirstCL (placeholder kv.1) (encodePathComponent kv.2).toList p
          else p)
        path := by
  induction ps generalizing path processed with
  | nil => rfl
  | cons kv ps ih =>
    obtain ⟨k, v⟩ := kv
    simp only [List.map_cons, List.nodup_cons] at hnd
    have hk : k ∉ processed := h k (by simp)
    have hkc : processed.contains k = false := by
      simpa using hk
    simp only [List.foldl_cons, hkc, Bool.false_eq_true, if_false]
    by_cases hc : containsCL (placeholder k) path = true
    · rw [if_pos hc, if_pos hc]
      refine ih _ _ (fun k' hk' => ?_) hnd.2
      simp only [List.mem_append, List.mem_singleton, not_or]
      refine ⟨h k' (by simp [hk']), fun he => hnd.1 (he ▸ hk')⟩
    · rw [if_neg hc, if_neg hc]
      exact ih _ _ (fun k' hk' => h k' (by simp [hk'])) hnd.2

/-! ### Claim theorems -/

/-- C10 (counterexample): the claim states `buildPath` replaces *each*
occurrence of a placeholder whose key is present; on the template
`/\x7ba\x7d/\x7ba\x7d` with the parameter map `a = x` that predicts
`/x/x`, but JavaScript `String.prototype.replace` with a string pattern
replaces only the first occurrence, so `buildPath` returns
`/x/\x7ba\x7d`. -/
theorem buildPath_each_occurrence_counterexample :
    buildPath "/\x7ba\x7d/\x7ba\x7d" [("a", "x")] = "/x/\x7ba\x7d" ∧
    buildPath "/\x7ba\x7d/\x7ba\x7d" [("a", "x")] ≠ "/x/x" := by
  constructor
  · decide
  · decide

/-- C10 (amended): for every standard path template (no Google-style
`\x7bname=pattern\x7d` placeholder, hence no `=`) and every parameter map
(distinct keys, as JavaScript object keys are), `buildPath` processes the
entries in insertion order and each replaces only the *first* occurrence of
its `\x7bkey\x7d` placeholder still present in the path with the
URI-encoded value (forward slashes preserved); placeholders whose key is
absent from the map, and later duplicate occurrences, are left literally
unchanged — this is exactly `substFirstOrdered`. -/
theorem buildPath_first_occurrence (t : String) (ps : List (String × String))
    (h1 : '=' ∉ t.toList) (h2 : (ps.map Prod.fst).Nodup) :
    buildPath t ps = substFirstOrdered t ps := by
  simp only [buildPath, substFirstOrdered]
  rw [googleMatches_no_eq _ h1]
  simp only [List.foldl_nil]
  exact congrArg String.mk (stdFold_eq_plain ps t.toList [] (by simp) h2)

/-- C10 (witness): the amended statement applied to the `getRecord`
template with the `base_id` parameter missing; the `base_id` placeholder
survives literally. -/
theorem buildPath_first_occurrence_witness :
    ('=' ∉ ("/\x7bbase_id\x7d/\x7btable_id_or_name\x7d/\x7brecord_id\x7d" : String).toList) ∧
    (([("table_id_or_name", "tbl"), ("record_id", "rec")].map
        (Prod.fst (α := String) (β := String))).Nodup) ∧
    buildPath "/\x7bbase_id\x7d/\x7btable_id_or_name\x7d/\x7brecord_id\x7d"
        [("table_id_or_name", "tbl"), ("record_id", "rec")]
      = substFirstOrdered "/\x7bbase_id\x7d/\x7btable_id_or_name\x7d/\x7brecord_id\x7d"
        [("table_id_or_name", "tbl"), ("record_id", "rec")] ∧
    buildPath "/\x7bbase_id\x7d/\x7btable_id_or_name\x7d/\x7brecord_id\x7d"
        [("table_id_or_name", "tbl"), ("record_id", "rec")]
      = "/\x7bbase_id\x7d/tbl/rec" :=
  ⟨by decide, by decide,
   buildPath_first_occurrence _ _ (by decide) (by decide),
   by decide⟩

/-- C5 (code evaluated at the failing input): invoking `getRecord` with the
required `base_id` missing is not rejected — the source's
`Validate required parameters` block is empty — and the outbound HTTP
request *is* issued, with the literal `\x7bbase_id\x7d` placeholder text
left in the request path, for every HTTP environment and options. This
contradicts the claim that structurally malformed input is reported as
`InvalidArguments` without issuing the request. -/
theorem getRecord_missing_base_id_issues_request (options : ReqOptions) (http : HttpOracle) :
    (getRecord [("table_id_or_name", Value.str "tbl"), ("record_id", Value.str "rec")]
        options http).issued
      = some ("/\x7bbase_id\x7d/tbl/rec", []) := rfl

/-- C1: whenever the context's cancellation signal is already aborted at
dispatch time, `executeTool` throws `'Request was cancelled'` (logged as the
cancellation path) before consulting `canHandle` or invoking any client
method — for every operation name, supported or not, and every argument
object. -/
theorem executeTool_preAborted_rejects (name : String) (args : Args) (c : RequestContext)
    (reporter : Bool) (client : ClientOracle) (h : c.aborted = true) :
    (executeTool name args (some c) reporter client).outcome
        = .thrown "Request was cancelled" true ∧
    (executeTool name args (some c) reporter client).handlerInvoked = none := by
  unfold executeTool
  simp [earlyAborted, h]

/-- C1 (witness): the theorem applied to an already-aborted context and an
unsupported operation name. -/
theorem executeTool_preAborted_rejects_witness :
    (RequestContext.mk "r1" none true).aborted = true ∧
    ((executeTool "not_a_real_tool" [] (some ⟨"r1", none, true⟩) false
        (fun _ _ _ => ⟨[], Except.error "boom", false⟩)).outcome
        = .thrown "Request was cancelled" true ∧
     (executeTool "not_a_real_tool" [] (some ⟨"r1", none, true⟩) false
        (fun _ _ _ => ⟨[], Except.error "boom", false⟩)).handlerInvoked = none) :=
  ⟨rfl, executeTool_preAborted_rejects _ _ _ _ _ rfl⟩

/-- C2: for every operation name outside the supported set, with the
cancellation signal not already active, `executeTool` throws
`'Unknown tool: <name>'` (logged as a tool error, not a cancellation) and
invokes no client method. -/
theorem executeTool_unknown_tool (name : String) (args : Args)
    (context : Option RequestContext) (reporter : Bool) (client : ClientOracle)
    (h1 : earlyAborted context = false) (h2 : canHandle name = false) :
    (executeTool name args context reporter client).outcome
        = .thrown ("Unknown tool: " ++ name) false ∧
    (executeTool name args context reporter client).handlerInvoked = none := by
  unfold executeTool
  simp [h1, h2]

/-- C2 (witness): the theorem applied to the name `not_a_real_tool` with no
context. -/
theorem executeTool_unknown_tool_witness :
    earlyAborted none = false ∧
    canHandle "not_a_real_tool" = false ∧
    ((executeTool "not_a_real_tool" [] none false
        (fun _ _ _ => ⟨[], Except.error "boom", false⟩)).outcome
        = .thrown ("Unknown tool: " ++ "not_a_real_tool") false ∧
     (executeTool "not_a_real_tool" [] none false
        (fun _ _ _ => ⟨[], Except.error "boom", false⟩)).handlerInvoked = none) :=
  ⟨rfl, by decide, executeTool_unknown_tool _ _ _ _ _ rfl (by decide)⟩

/-- C7: a progress event emitted for a token after that token's channel has
been unregistered (as happens when the invocation completes) leaves the
correlator state completely unchanged: nothing is delivered to the
transport and nothing is queued. -/
theorem progressCorrelator_drops_after_unregister (st : ProgressCorrelator) (t : String)
    (e : ProgressEvent) :
    pcEmit (pcUnregister st t) t e = pcUnregister st t := by
  unfold pcEmit pcUnregister
  simp [contains_filter_ne]

lemma cancelSignal_not_mem (st : CancellationRegistry) (id : String)
    (h : id ∉ st.entries.map Prod.fst) : cancelSignal st id = st := by
  unfold cancelSignal
  cases st with
  | mk entries =>
    simp only [CancellationRegistry.mk.injEq]
    induction entries with
    | nil => rfl
    | cons e rest ih =>
      simp only [List.map_cons, List.mem_cons, not_or] at h
      have he : (e.1 == id) = false := by
        have : e.1 ≠ id := fun hh => h.1 hh.symm
        simp [this]
      simp only [List.map_cons, he, Bool.false_eq_true, if_false, List.cons.injEq, true_and]
      exact ih h.2

lemma cancelSignal_idem (st : CancellationRegistry) (id : String) :
    cancelSignal (cancelSignal st id) id = cancelSignal st id := by
  unfold cancelSignal
  simp only [CancellationRegistry.mk.injEq, List.map_map]
  apply List.map_congr_left
  intro e _
  by_cases h : e.1 = id
  · simp [Function.comp, h]
  · simp [Function.comp, h]

/-- C8: cancelling a `requestId` that was never registered is a state-wise
no-op (and raises no error — `cancelSignal` is total); cancelling an id
whose entry has already been removed by `unregisterSignal` (as on
completion) is likewise a no-op; and cancelling twice is the same as
cancelling once — activation is idempotent. -/
theorem cancellationRegistry_cancel_safe :
    (∀ st id, id ∉ st.entries.map Prod.fst → cancelSignal st id = st) ∧
    (∀ st id, cancelSignal (unregisterSignal st id) id = unregisterSignal st id) ∧
    (∀ st id, cancelSignal (cancelSignal st id) id = cancelSignal st id) := by
  refine ⟨fun st id h => cancelSignal_not_mem st id h, fun st id => ?_,
    fun st id => cancelSignal_idem st id⟩
  refine cancelSignal_not_mem _ _ ?_
  simp [unregisterSignal]

/-- C8 (witness): the first conjunct applied to a concrete registry holding
only `r1`, cancelling the unknown id `r2`. -/
theorem cancellationRegistry_cancel_safe_witness :
    ("r2" ∉ (CancellationRegistry.mk [("r1", false)]).entries.map Prod.fst) ∧
    cancelSignal ⟨[("r1", false)]⟩ "r2" = ⟨[("r1", false)]⟩ :=
  ⟨by decide, cancellationRegistry_cancel_safe.1 ⟨[("r1", false)]⟩ "r2" (by decide)⟩

/-- C9: `executeTool` never mutates the context it receives: on every exit
path the returned context has the same `requestId` and `progressToken`, and
its `aborted` flag differs from the input only by or-ing in `envAborted` —
the one-way signal transition performed by the environment during the
client call, never by `executeTool` itself (on paths that perform no client
call, `envAborted` is `false` and the context is returned untouched). -/
theorem executeTool_context_unchanged (name : String) (args : Args)
    (context : Option RequestContext) (reporter : Bool) (client : ClientOracle) :
    (executeTool name args context reporter client).ctxAfter =
      context.map (fun c =>
        { requestId := c.requestId, progressToken := c.progressToken,
          aborted := c.aborted ||
            (executeTool name args context reporter client).envAborted }) := by
  unfold executeTool
  by_cases h1 : earlyAborted context = true
  · simp only [h1, if_true]
    cases context with
    | none => rfl
    | some c => simp
  · simp only [h1]
    by_cases h2 : canHandle name = true
    · simp only [h2]
      cases hop : toolOpName name with
      | none =>
        simp only [Bool.not_true, Bool.false_eq_true, if_false]
        cases context with
        | none => rfl
        | some c => simp
      | some op =>
        simp only [Bool.not_true, Bool.false_eq_true, if_false]
    · have h2f : canHandle name = false := by
        simpa using h2
      simp only [h2f, Bool.not_false, if_true]
      cases context with
      | none => rfl
      | some c => simp

lemma canHandle_of_toolOpName (n : String) (op : String) (h : toolOpName n = some op) :
    canHandle n = true := by
  unfold toolOpName at h
  split at h
  all_goals first
    | decide
    | exact absurd h (by simp)

lemma executeTool_ok (name op : String) (args : Args) (context : Option RequestContext)
    (reporter : Bool) (client : ClientOracle) (p : ToolPayload)
    (hop : toolOpName name = some op) (h1 : earlyAborted context = false)
    (hres : (client name args (mkReqOptions context reporter)).result = Except.ok p) :
    (executeTool name args context reporter client).outcome = .success p := by
  have hch := canHandle_of_toolOpName name op hop
  unfold executeTool
  simp only [h1, Bool.false_eq_true, if_false, hch, Bool.not_true, hop, hres]

/-- C3: when a supported operation's handler call fails and either the
cancellation signal was aborted during the call or the failure is the
cancellation error `'Request was cancelled'`, `executeTool` classifies the
outcome as a cancellation (logs the cancellation path) while rethrowing —
no success payload is produced; and the client maps an axios cancellation
of the HTTP request to exactly the error `'Request was cancelled'`
(`listBases`). -/
theorem executeTool_cancellation_classified :
    (∀ name op args (c : RequestContext) reporter client msg,
      toolOpName name = some op → c.aborted = false →
      (client name args (mkReqOptions (some c) reporter)).result = Except.error msg →
      ((client name args (mkReqOptions (some c) reporter)).abortedDuring = true ∨
        msg = "Request was cancelled") →
      (executeTool name args (some c) reporter client).outcome = .thrown msg true) ∧
    (∀ params options http,
      http "/meta/bases" (listBasesQueryParams params) = HttpOutcome.cancelled →
      (listBases params options http).result = Except.error "Request was cancelled") := by
  constructor
  · intro name op args c reporter client msg hop hab hres hcan
    have hch := canHandle_of_toolOpName name op hop
    have h1 : earlyAborted (some c) = false := by
      simp [earlyAborted, hab]
    unfold executeTool
    simp only [h1, Bool.false_eq_true, if_false, hch, Bool.not_true, hop, hres]
    rcases hcan with hd | hm
    · simp [earlyAborted, hab, hd]
    · subst hm
      simp
  · intro params options http hcan
    have key : (listBases params options http).result =
        (match http "/meta/bases" (listBasesQueryParams params) with
          | .ok data => Except.ok ⟨[⟨"text", stringify2 data⟩]⟩
          | .cancelled => Except.error "Request was cancelled"
          | .err m => Except.error ("Failed to execute list_bases: " ++ m)) := rfl
    rw [key, hcan]

/-- C3 (witness): the classification applied to a concrete failing client
whose call observed the signal abort mid-flight, and the client mapping
applied to a concrete always-cancelling HTTP environment. -/
theorem executeTool_cancellation_classified_witness :
    (toolOpName "airtable_create_records" = some "create_records" ∧
     (RequestContext.mk "r1" none false).aborted = false ∧
     ((fun (_ : String) (_ : Args) (_ : ReqOptions) =>
        ClientReturn.mk [] (Except.error "Request was cancelled") true)
          "airtable_create_records" [] (mkReqOptions (some ⟨"r1", none, false⟩) false)).result
        = Except.error "Request was cancelled" ∧
     (executeTool "airtable_create_records" [] (some ⟨"r1", none, false⟩) false
        (fun _ _ _ => ⟨[], Except.error "Request was cancelled", true⟩)).outcome
        = .thrown "Request was cancelled" true) ∧
    ((fun (_ : String) (_ : Args) => HttpOutcome.cancelled) "/meta/bases"
        (listBasesQueryParams []) = HttpOutcome.cancelled ∧
     (listBases [] ⟨false, false⟩ (fun _ _ => HttpOutcome.cancelled)).result
        = Except.error "Request was cancelled") :=
  ⟨⟨rfl, rfl, rfl,
    executeTool_cancellation_classified.1 _ _ _ _ _ _ _ rfl rfl rfl (Or.inl rfl)⟩,
   ⟨rfl, executeTool_cancellation_classified.2 [] ⟨false, false⟩ _ rfl⟩⟩

/-- C4: when a supported operation's handler call resolves (and the signal
was not already aborted), `executeTool` returns the handler's success
payload unchanged; in particular `airtable_list_bases` against the concrete
client returns exactly the client's result — one text content block
holding the JSON-serialized response body. -/
theorem executeTool_success_payload :
    (∀ name op args context reporter client p,
      toolOpName name = some op → earlyAborted context = false →
      (client name args (mkReqOptions context reporter)).result = Except.ok p →
      (executeTool name args context reporter client).outcome = .success p) ∧
    (∀ context reporter http d, earlyAborted context = false →
      http "/meta/bases" [] = HttpOutcome.ok d →
      (executeTool "airtable_list_bases" [] context reporter (clientDispatch http)).outcome
        = .success ⟨[⟨"text", stringify2 d⟩]⟩) := by
  constructor
  · intro name op args context reporter client p hop h1 hres
    exact executeTool_ok name op args context reporter client p hop h1 hres
  · intro context reporter http d h1 hd
    refine executeTool_ok _ "list_bases" _ _ _ _ _ rfl h1 ?_
    have key : (clientDispatch http "airtable_list_bases" []
        (mkReqOptions context reporter)).result =
        (match http "/meta/bases" [] with
          | .ok data => Except.ok ⟨[⟨"text", stringify2 data⟩]⟩
          | .cancelled => Except.error "Request was cancelled"
          | .err m => Except.error ("Failed to execute list_bases: " ++ m)) := rfl
    rw [key, hd]

/-- C4 (witness): the general statement applied to a constant succeeding
client, and the `airtable_list_bases` statement applied to an HTTP
environment answering with `null`. -/
theorem executeTool_success_payload_witness :
    (toolOpName "airtable_get_table" = some "get_table" ∧
     earlyAborted none = false ∧
     ((fun (_ : String) (_ : Args) (_ : ReqOptions) =>
        ClientReturn.mk [] (Except.ok ⟨[]⟩) false) "airtable_get_table" []
          (mkReqOptions none false)).result = Except.ok (ToolPayload.mk []) ∧
     (executeTool "airtable_get_table" [] none false
        (fun _ _ _ => ⟨[], Except.ok ⟨[]⟩, false⟩)).outcome = .success ⟨[]⟩) ∧
    ((fun (_ : String) (_ : Args) => HttpOutcome.ok Value.null) "/meta/bases" []
        = HttpOutcome.ok Value.null ∧
     (executeTool "airtable_list_bases" [] none false
        (clientDispatch (fun _ _ => HttpOutcome.ok Value.null))).outcome
        = .success ⟨[⟨"text", stringify2 Value.null⟩]⟩) :=
  ⟨⟨rfl, rfl, rfl, executeTool_success_payload.1 _ _ _ _ _ _ _ rfl rfl rfl⟩,
   ⟨rfl, executeTool_success_payload.2 none false _ Value.null rfl rfl⟩⟩

/-- C6: for a supported operation with a (truthy) progress token and a
progress reporter present, `executeTool` emits exactly one start event
`(0, 100)` before the client call and, on success, exactly one completion
event `(100, 100)` after it, with the handler's own events in between — in
that order (the dispatcher's own values `0` then `100` are non-negative and
non-decreasing by construction); with no progress token (or no context at
all), no progress events are delivered. -/
theorem executeTool_progress_events :
    (∀ name op args context reporter client p,
      toolOpName name = some op → earlyAborted context = false →
      progressWired context reporter = true →
      (client name args (mkReqOptions context reporter)).result = Except.ok p →
      (executeTool name args context reporter client).events =
        ⟨0, some 100, "Starting " ++ op ++ " operation..."⟩ ::
          ((client name args (mkReqOptions context reporter)).events ++
            [⟨100, some 100, "Completed " ++ op ++ " operation"⟩])) ∧
    (∀ name op args (c : RequestContext) reporter client,
      toolOpName name = some op → c.progressToken = none →
      (executeTool name args (some c) reporter client).events = []) ∧
    (∀ name op args reporter client,
      toolOpName name = some op →
      (executeTool name args none reporter client).events = []) := by
  refine ⟨?_, ?_, ?_⟩
  · intro name op args context reporter client p hop h1 hw hres
    have hch := canHandle_of_toolOpName name op hop
    unfold executeTool
    simp only [h1, Bool.false_eq_true, if_false, hch, Bool.not_true, hop, hres, hw, if_true]
    simp
  · intro name op args c reporter client hop htok
    have hch := canHandle_of_toolOpName name op hop
    have hw : progressWired (some c) reporter = false := by
      simp [progressWired, tokenTruthy, htok]
    unfold executeTool
    by_cases hab : earlyAborted (some c) = true
    · simp [hab]
    · simp only [Bool.not_eq_true] at hab
      simp only [hab, Bool.false_eq_true, if_false, hch, Bool.not_true, hop, hw]
      cases (client name args (mkReqOptions (some c) reporter)).result <;> simp
  · intro name op args reporter client hop
    have hch := canHandle_of_toolOpName name op hop
    have hw : progressWired none reporter = false := rfl
    unfold executeTool
    simp only [earlyAborted, Bool.false_eq_true, if_false, hch, Bool.not_true, hop, hw]
    cases (client name args (mkReqOptions none reporter)).result <;> simp

/-- C6 (witness): the event trace for a concrete wired invocation of
`airtable_list_records` whose handler emits one event of its own, and the
empty trace for a token-free context and for an absent context. -/
theorem executeTool_progress_events_witness :
    (toolOpName "airtable_list_records" = some "list_records" ∧
     earlyAborted (some ⟨"r1", some "tok", false⟩) = false ∧
     progressWired (some ⟨"r1", some "tok", false⟩) true = true ∧
     ((fun (_ : String) (_ : Args) (_ : ReqOptions) =>
        ClientReturn.mk [⟨50, some 100, "halfway"⟩] (Except.ok ⟨[]⟩) false)
          "airtable_list_records" [] (mkReqOptions (some ⟨"r1", some "tok", false⟩) true)).result
        = Except.ok (ToolPayload.mk []) ∧
     (executeTool "airtable_list_records" [] (some ⟨"r1", some "tok", false⟩) true
        (fun _ _ _ => ⟨[⟨50, some 100, "halfway"⟩], Except.ok ⟨[]⟩, false⟩)).events =
        ⟨0, some 100, "Starting " ++ "list_records" ++ " operation..."⟩ ::
          ([⟨50, some 100, "halfway"⟩] ++
            [⟨100, some 100, "Completed " ++ "list_records" ++ " operation"⟩])) ∧
    ((⟨"r2", none, false⟩ : RequestContext).progressToken = none ∧
     (executeTool "airtable_list_records" [] (some ⟨"r2", none, false⟩) true
        (fun _ _ _ => ⟨[⟨50, some 100, "halfway"⟩], Except.ok ⟨[]⟩, false⟩)).events = []) ∧
    (executeTool "airtable_list_records" [] none true
        (fun _ _ _ => ⟨[⟨50, some 100, "halfway"⟩], Except.ok ⟨[]⟩, false⟩)).events = [] :=
  ⟨⟨rfl, rfl, rfl, rfl,
    executeTool_progress_events.1 _ _ _ _ _ _ _ rfl rfl rfl rfl⟩,
   ⟨rfl, executeTool_progress_events.2.1 _ "list_records" _ _ _ _ rfl rfl⟩,
   executeTool_progress_events.2.2 _ "list_records" _ _ _ rfl⟩
